import Mathlib

/-!
Verification of the multi-modal PDF chatbot repository
(`retrieval.py`, `retrieval_api.py`, `Ingestion.py`).

The Python code is shallowly embedded: the Qdrant vector store is modelled
as a search function `String → Nat → Option (List Doc)` (`none` models a
raised exception, `some docs` a successful similarity search), document
metadata dictionaries are records with `Option` fields for keys that may be
absent, and the LLM / text-splitter third-party calls are abstracted as
function parameters.
-/

namespace PdfChatbot

/-- `leadsWith n h` decides whether the char list `n` starts the char list `h`. -/
def leadsWith : List Char → List Char → Bool
  | [], _ => true
  | _ :: _, [] => false
  | a :: as, b :: bs => a == b && leadsWith as bs

/-- Python's substring test `n in h` on char lists. -/
def hasSub (needle : List Char) : List Char → Bool
  | [] => leadsWith needle []
  | b :: t => leadsWith needle (b :: t) || hasSub needle t

/-- Python's `str.lower()`. -/
def strLower (s : String) : String :=
  String.mk (s.data.map Char.toLower)

/-- Python's `str.strip()`: drop leading and trailing whitespace. -/
def pyStrip (s : String) : String :=
  String.mk (((s.data.dropWhile Char.isWhitespace).reverse.dropWhile
    Char.isWhitespace).reverse)

/-- Python's `str.startswith(pre)`. -/
def pyStartsWith (s pre : String) : Bool :=
  leadsWith pre.data s.data

/-- Python's `str.endswith(suff)`. -/
def pyEndsWith (s suff : String) : Bool :=
  leadsWith suff.data.reverse s.data.reverse

/-- Metadata dictionary of a stored document, as read by `retrieval.py`:
each key may be absent (`none`). -/
structure Metadata where
  raw : Option String
  img_b64 : Option String
  source : Option String
  page : Option Int
deriving DecidableEq

/-- A document returned by the vector store's `similarity_search`
(`page_content` holds the summary text). -/
structure Doc where
  page_content : String
  metadata : Metadata
deriving DecidableEq

/-- The result dictionary built by `PDFRAGRetriever.retrieve` for each hit. -/
structure RDoc where
  summary : String
  raw : String
  img_b64 : Option String
  source : String
  page : Option Int
deriving DecidableEq

/-- The `(md.get("source"), md.get("page"))` identifier used for
deduplication in `hybrid_retrieve`; `none` models a missing key. -/
abbrev Ident := Option String × Option Int

/-- The vector store's search: `none` models `similarity_search` raising. -/
abbrev SearchFn := String → Nat → Option (List Doc)

/-- The result dictionary `{"summary": doc.page_content, "raw": md.get("raw",""),
"img_b64": md.get("img_b64"), "source": md.get("source",""), "page": md.get("page",None)}`. -/
def docToRes (doc : Doc) : RDoc :=
  { summary := doc.page_content
    raw := doc.metadata.raw.getD ""
    img_b64 := doc.metadata.img_b64
    source := doc.metadata.source.getD ""
    page := doc.metadata.page }

/-- `identifier = (md.get("source"), md.get("page"))` of a candidate document. -/
def identOf (doc : Doc) : Ident :=
  (doc.metadata.source, doc.metadata.page)

/-- The `(res["source"], res["page"])` pair of a result dictionary, injected
into `Ident` (`res["source"]` is always a string, hence `some`). -/
def resIdent (r : RDoc) : Ident :=
  (some r.source, r.page)

/-- `PDFRAGRetriever.retrieve`: on a raised `similarity_search` return `[]`,
otherwise build one result dictionary per returned document. -/
def retrieve (search : SearchFn) (query : String) (top_k : Nat) : List RDoc :=
  match search query top_k with
  | none => []
  | some docs =>
      docs.map fun doc =>
        { summary := doc.page_content
          raw := doc.metadata.raw.getD ""
          img_b64 := doc.metadata.img_b64
          source := doc.metadata.source.getD ""
          page := doc.metadata.page }

/-- Condition under which the keyword scan appends a candidate:
`query.lower() in raw_text` and its identifier is not in `seen`. -/
abbrev kwCond (queryL : String) (seen : List Ident) (doc : Doc) : Prop :=
  hasSub queryL.data (strLower (doc.metadata.raw.getD "")).data = true ∧ identOf doc ∉ seen

/-- The keyword-fallback loop of `hybrid_retrieve`: scan `pool` in order,
append a fresh matching candidate, and break as soon as
`len(semantic_results) + len(keyword_results) >= top_k`. -/
def kwScan (queryL : String) (semLen top_k : Nat) :
    List Doc → List Ident → List Doc → List Doc
  | [], _, acc => acc
  | doc :: rest, seen, acc =>
      if kwCond queryL seen doc then
        let acc2 := acc ++ [doc]
        if top_k ≤ semLen + acc2.length then acc2
        else kwScan queryL semLen top_k rest (identOf doc :: seen) acc2
      else
        if top_k ≤ semLen + acc.length then acc
        else kwScan queryL semLen top_k rest seen acc

/-- `PDFRAGRetriever.hybrid_retrieve`: semantic search first; if it returned
fewer than `top_k` results, fetch `similarity_search("", k=50)` (whose raised
exception propagates, modelled by `none`) and run the keyword scan. -/
def hybrid_retrieve (search : SearchFn) (query : String) (top_k : Nat) :
    Option (List RDoc) :=
  let semantic_results := retrieve search query top_k
  if semantic_results.length < top_k then
    match search "" 50 with
    | none => none
    | some potential_docs =>
        some (semantic_results ++
          (kwScan (strLower query) semantic_results.length top_k potential_docs
            (semantic_results.map resIdent) []).map docToRes)
  else
    some semantic_results

/-- The keyword-fallback documents appended by `hybrid_retrieve` (empty when
the fallback does not run or the pool fetch raises). -/
def kwOf (search : SearchFn) (query : String) (top_k : Nat) : List Doc :=
  if (retrieve search query top_k).length < top_k then
    match search "" 50 with
    | none => []
    | some potential_docs =>
        kwScan (strLower query) (retrieve search query top_k).length top_k potential_docs
          ((retrieve search query top_k).map resIdent) []
  else []

/-- Keyword scan as claim C1 words it: scan the whole pool, appending exactly
the fresh case-insensitive matches, with no stopping rule. -/
def keywordSpecC1 (queryL : String) : List Doc → List Ident → List Doc
  | [], _ => []
  | doc :: rest, seen =>
      if kwCond queryL seen doc then
        doc :: keywordSpecC1 queryL rest (identOf doc :: seen)
      else
        keywordSpecC1 queryL rest seen

/-- `hybrid_retrieve` as claim C1 states it (fallback appends every fresh
match of the 50-document pool, without the stopping rule). -/
def hybridSpecC1 (search : SearchFn) (query : String) (top_k : Nat) :
    Option (List RDoc) :=
  let semantic_results := retrieve search query top_k
  if semantic_results.length < top_k then
    (search "" 50).map fun potential_docs =>
      semantic_results ++
        (keywordSpecC1 (strLower query) potential_docs
          (semantic_results.map resIdent)).map docToRes
  else
    some semantic_results

/-- The `(source, page)` pairs of a combined result list. -/
def pairsOf (l : List RDoc) : List (String × Option Int) :=
  l.map fun r => (r.source, r.page)

/-- The number of stored units with distinct `(source, page)` pairs. -/
def uniqueUnits (store : List Doc) : Nat :=
  ((store.map identOf).dedup).length

/-- The keyword-fallback documents have pairwise distinct identifiers, none
of which occurs among the semantic results' `(source, page)` pairs. -/
def kwSound (sem : List RDoc) (kw : List Doc) : Prop :=
  ((kw.map identOf).Nodup) ∧ ∀ d ∈ kw, identOf d ∉ sem.map resIdent

/-! ## The `/ask` endpoint (`retrieval_api.py`) -/

/-- Pydantic `ImageResponse`. -/
structure ImageResponse where
  img_b64 : String
  source : String
  page : Int
deriving DecidableEq

/-- Pydantic `AnswerResponse`. -/
structure AnswerResponse where
  answer : String
  citations : List String
  images : List ImageResponse
deriving DecidableEq

/-- `src = h.get("source") or h.get("metadata", {}).get("source", "unknown")`:
the result dictionaries built by `retrieve` always carry a string `source`
key and no `metadata` key, so the fallback fires exactly on the falsy `""`. -/
def srcOf (h : RDoc) : String :=
  if h.source = "" then "unknown" else h.source

/-- `pg = h.get("page") or h.get("metadata", {}).get("page", -1)`: Python
treats both `None` and `0` as falsy. -/
def pgOf (h : RDoc) : Int :=
  match h.page with
  | none => -1
  | some p => if p = 0 then -1 else p

/-- The citation string `f"{src} (page {pg})"` built by `/ask`. -/
def citationOf (h : RDoc) : String :=
  srcOf h ++ " (page " ++ toString (pgOf h) ++ ")"

/-- The optional image entry of a hit:
`img_b64 = h.get("img_b64") or h.get("metadata", {}).get("img_b64")`,
appended only when truthy (a non-empty string). -/
def imgOf (h : RDoc) : Option ImageResponse :=
  match h.img_b64 with
  | none => none
  | some s => if s = "" then none else some ⟨s, srcOf h, pgOf h⟩

/-- The `for idx, h in enumerate(hits, start=1)` loop of `/ask`, producing
`(blocks, citations, images_resp)`. -/
def askLoop : Nat → List RDoc → List String × List String × List ImageResponse
  | _, [] => ([], [], [])
  | idx, h :: rest =>
      let src := if h.source = "" then "unknown" else h.source
      let pg : Int := match h.page with
        | none => -1
        | some p => if p = 0 then -1 else p
      let cit := src ++ " (page " ++ toString pg ++ ")"
      let block := "Context " ++ toString idx ++ ":\nSummary: " ++ h.summary
        ++ "\nRaw: " ++ h.raw
      let imgEntry : List ImageResponse :=
        match h.img_b64 with
        | none => []
        | some s => if s = "" then [] else [⟨s, src, pg⟩]
      let tail := askLoop (idx + 1) rest
      (block :: tail.1, cit :: tail.2.1, imgEntry ++ tail.2.2)

/-- The prompt assembled by `/ask` from the context blocks and the question. -/
def askPrompt (blocks : List String) (text : String) : String :=
  "You are a helpful assistant. Use the following contexts to answer the user's question.\n\n"
    ++ String.intercalate "\n\n" blocks
    ++ "\n\nQuestion: " ++ text ++ "\nAnswer:"

deriving instance DecidableEq for Except

/-- The tail of `/ask` once `hits` are in hand: 404 on no hits, then the LLM
call (500 on a raised exception) and the assembled response. -/
def askHits (llm : String → Option String) (text : String) (hits : List RDoc) :
    Except Nat AnswerResponse :=
  if hits.isEmpty then Except.error 404
  else
    match llm (askPrompt (askLoop 1 hits).1 text) with
    | none => Except.error 500
    | some content =>
        Except.ok ⟨pyStrip content, (askLoop 1 hits).2.1, (askLoop 1 hits).2.2⟩

/-- The retrieval step of `/ask`: `hybrid_retrieve(query.text, top_k=3)`,
500 on a raised exception. -/
def askRetrieved (search : SearchFn) (llm : String → Option String) (text : String) :
    Except Nat AnswerResponse :=
  match hybrid_retrieve search text 3 with
  | none => Except.error 500
  | some hits => askHits llm text hits

/-- The `/ask` endpoint. `retr` is the module-global retriever (set by a prior
`/upload`); `llm` models `llm.invoke` (`none` = raised exception); the result
is the HTTP status code of the raised `HTTPException` or the response body. -/
def ask (retr : Option SearchFn) (llm : String → Option String) (text : String) :
    Except Nat AnswerResponse :=
  if pyStrip text = "" then Except.error 400
  else
    match retr with
    | none => Except.error 400
    | some search => askRetrieved search llm text

/-- The hits used by a `/ask` request (`top_k = 3`). -/
def hitsOf (search : SearchFn) (text : String) : List RDoc :=
  (hybrid_retrieve search text 3).getD []

/-- Citation as claim C4 words it: `"<source> (page <page>)"` built directly
from the unit's stored fields, with Python's rendering of an absent page. -/
def citationSpecC4 (u : RDoc) : String :=
  u.source ++ " (page " ++ (match u.page with
    | some p => toString p
    | none => "None") ++ ")"

/-- Claim C4 at a given input: every successful `/ask` response carries the
metadata-built citations positionally, and image payloads exactly for the
units with a non-empty base64 payload. -/
def claimC4At (search : SearchFn) (llm : String → Option String) (text : String) : Prop :=
  ∀ resp, ask (some search) llm text = Except.ok resp →
    resp.citations = (hitsOf search text).map citationSpecC4 ∧
    resp.images.map (fun i => i.img_b64) =
      (hitsOf search text).filterMap fun u =>
        match u.img_b64 with
        | none => none
        | some s => if s = "" then none else some s

/-! ## Ingestion (`Ingestion.py`) -/

/-- The configuration of `RecursiveCharacterTextSplitter(chunk_size=800,
chunk_overlap=100, length_function=len)`. -/
structure SplitterConfig where
  chunk_size : Int
  chunk_overlap : Int
deriving DecidableEq

/-- `splitter = RecursiveCharacterTextSplitter(chunk_size=800, chunk_overlap=100, ...)`. -/
def splitter : SplitterConfig :=
  { chunk_size := 800, chunk_overlap := 100 }

/-- `text_prompt`: the template applied before the LLM call. -/
def text_prompt (block : String) : String :=
  "Summarize the following text block concisely:\n\n" ++ block

/-- `table_prompt`. -/
def table_prompt (block : String) : String :=
  "Summarize the following table in plain English:\n\n" ++ block

/-- `image_prompt`. -/
def image_prompt (block : String) : String :=
  "Summarize the following OCR text from an image:\n\n" ++ block

/-- The LLM, abstracted: `none` models a raised exception. -/
abbrev LlmFn := String → Option String

/-- `text_chain = text_prompt | llm`. -/
def text_chain (llm : LlmFn) (block : String) : Option String :=
  llm (text_prompt block)

/-- `table_chain = table_prompt | llm`. -/
def table_chain (llm : LlmFn) (block : String) : Option String :=
  llm (table_prompt block)

/-- `image_chain = image_prompt | llm`. -/
def image_chain (llm : LlmFn) (block : String) : Option String :=
  llm (image_prompt block)

/-- An element produced by `UnstructuredPDFLoader(..., mode="elements")`:
`page_content`, `metadata.get("page_number")` and
`metadata.get("element_type")` (either may be absent). -/
structure Element where
  content : String
  page_number : Option Int
  element_type : Option String
deriving DecidableEq

/-- A page rendering from `advanced_extract_images` together with its OCR
text (`pytesseract.image_to_string`, not yet stripped) and its
`pil_to_base64` payload; its metadata is `{"source": ..., "page": page_idx+1}`. -/
structure OcrImage where
  ocr : String
  page : Int
  img_b64 : String
deriving DecidableEq

/-- Metadata written by `ingest_pdf_bytes` for a stored summary document. -/
structure IngMeta where
  source : String
  page : Option Int
  type : String
  raw : String
  img_b64 : Option String
deriving DecidableEq

/-- A summary `Document` handed to `store.add_documents`. -/
structure IngDoc where
  page_content : String
  metadata : IngMeta
deriving DecidableEq

/-- The full-page loop of `ingest_pdf_bytes`: `for idx, page in
enumerate(PyPDFLoader(...).load(), 1)`, skipping blank pages and turning a
failed summarization into an error entry. -/
def pageLoop (llm : LlmFn) (fn : String) : Nat → List String → List IngDoc × List String
  | _, [] => ([], [])
  | idx, page :: rest =>
      let text := pyStrip page
      let tail := pageLoop llm fn (idx + 1) rest
      if text = "" then tail
      else
        match text_chain llm text with
        | some resp =>
            (⟨resp, ⟨fn, some (idx : Int), "page", text, none⟩⟩ :: tail.1, tail.2)
        | none =>
            (tail.1, ("Page " ++ toString idx ++ " summary failed") :: tail.2)

/-- The element-classification loop: collect `(page_content, page_number)`
pairs of the elements whose `element_type` starts with `"Narrative"`
(`metadata.get("element_type", "")`), and of those whose `element_type`
equals `"Table"` (`metadata.get("element_type")`, no default). -/
def collectElems : List Element →
    List (String × Option Int) × List (String × Option Int)
  | [] => ([], [])
  | el :: rest =>
      let tail := collectElems rest
      if pyStartsWith (el.element_type.getD "") "Narrative" then
        ((el.content, el.page_number) :: tail.1, tail.2)
      else if el.element_type = some "Table" then
        (tail.1, (el.content, el.page_number) :: tail.2)
      else tail

/-- Inner loop over `splitter.split_text(content)` for one narrative element. -/
def chunkInner (llm : LlmFn) (fn : String) (pg : Option Int) :
    List String → List IngDoc × List String
  | [] => ([], [])
  | chunk :: rest =>
      let tail := chunkInner llm fn pg rest
      match text_chain llm chunk with
      | some resp => (⟨resp, ⟨fn, pg, "chunk", chunk, none⟩⟩ :: tail.1, tail.2)
      | none => (tail.1, "Chunk summary failed" :: tail.2)

/-- `for content, md in text_chunks: for chunk in splitter.split_text(content): ...`. -/
def chunkLoop (llm : LlmFn) (split_text : String → List String) (fn : String) :
    List (String × Option Int) → List IngDoc × List String
  | [] => ([], [])
  | (content, pg) :: rest =>
      let here := chunkInner llm fn pg (split_text content)
      let tail := chunkLoop llm split_text fn rest
      (here.1 ++ tail.1, here.2 ++ tail.2)

/-- `for tbl, md in tables:` — the table is summarized whole (wrapped in a
`<table>` block for the prompt; the stored `raw` is the unwrapped table). -/
def tableLoop (llm : LlmFn) (fn : String) :
    List (String × Option Int) → List IngDoc × List String
  | [] => ([], [])
  | (tbl, pg) :: rest =>
      let tail := tableLoop llm fn rest
      match table_chain llm ("<table>\n" ++ tbl ++ "\n</table>") with
      | some resp => (⟨resp, ⟨fn, pg, "table", tbl, none⟩⟩ :: tail.1, tail.2)
      | none => (tail.1, "Table summary failed" :: tail.2)

/-- The OCR-image loop: skip images with blank OCR text, store the base64
payload and the stripped OCR text as `raw`. -/
def imageLoop (llm : LlmFn) (fn : String) : List OcrImage → List IngDoc × List String
  | [] => ([], [])
  | im :: rest =>
      let tail := imageLoop llm fn rest
      let ocr := pyStrip im.ocr
      if ocr = "" then tail
      else
        match image_chain llm ocr with
        | some resp =>
            (⟨resp, ⟨fn, some im.page, "image", ocr, some im.img_b64⟩⟩ :: tail.1, tail.2)
        | none => (tail.1, "Image summary failed" :: tail.2)

/-- `ingest_pdf_bytes`, with the PDF loaders modelled by their outputs
(`pages` from `PyPDFLoader`, `elements` from `UnstructuredPDFLoader`,
`images` from `advanced_extract_images` + OCR) and the library splitter
modelled as `split : SplitterConfig → String → List String`, invoked on the
`splitter` configuration. Returns the summaries added to the store and the
collected error strings. -/
def ingest_pdf_bytes (llm : LlmFn) (split : SplitterConfig → String → List String)
    (pdf_filename : String) (pages : List String) (elements : List Element)
    (images : List OcrImage) : List IngDoc × List String :=
  let pagePart := pageLoop llm pdf_filename 1 pages
  let grouped := collectElems elements
  let chunkPart := chunkLoop llm (split splitter) pdf_filename grouped.1
  let tablePart := tableLoop llm pdf_filename grouped.2
  let imagePart := imageLoop llm pdf_filename images
  (pagePart.1 ++ chunkPart.1 ++ tablePart.1 ++ imagePart.1,
   pagePart.2 ++ chunkPart.2 ++ tablePart.2 ++ imagePart.2)

/-- Spec-side: the documents produced from whole pages, unsplit
(`enumerate(..., 1)`, blank pages skipped). -/
def pageDocsSpec (llm : LlmFn) (fn : String) (pages : List String) : List IngDoc :=
  (List.enumFrom 1 pages).filterMap fun p =>
    if pyStrip p.2 = "" then none
    else (text_chain llm (pyStrip p.2)).map fun resp =>
      ⟨resp, ⟨fn, some (p.1 : Int), "page", pyStrip p.2, none⟩⟩

/-- Spec-side: recursive character splitting applied exactly to the elements
whose type starts with `"Narrative"`, one summary per successfully
summarized chunk. -/
def narrativeChunksSpec (llm : LlmFn) (split_text : String → List String)
    (fn : String) (elements : List Element) : List IngDoc :=
  (elements.filter fun el => pyStartsWith (el.element_type.getD "") "Narrative").flatMap
    fun el => (split_text el.content).filterMap fun chunk =>
      (text_chain llm chunk).map fun resp => ⟨resp, ⟨fn, el.page_number, "chunk", chunk, none⟩⟩

/-- Spec-side: the `"Table"` elements summarized whole, never split. -/
def tableDocsSpec (llm : LlmFn) (fn : String) (elements : List Element) : List IngDoc :=
  (elements.filter fun el => el.element_type = some "Table").filterMap fun el =>
    (table_chain llm ("<table>\n" ++ el.content ++ "\n</table>")).map fun resp =>
      ⟨resp, ⟨fn, el.page_number, "table", el.content, none⟩⟩

/-- Spec-side: OCR images with non-blank text, summarized whole. -/
def imageDocsSpec (llm : LlmFn) (fn : String) (images : List OcrImage) : List IngDoc :=
  images.filterMap fun im =>
    if pyStrip im.ocr = "" then none
    else (image_chain llm (pyStrip im.ocr)).map fun resp =>
      ⟨resp, ⟨fn, some im.page, "image", pyStrip im.ocr, some im.img_b64⟩⟩

/-! ## The `/upload` endpoint (`retrieval_api.py`) -/

/-- An uploaded file. -/
structure PFile where
  filename : String
  content : List Nat
deriving DecidableEq

/-- The vector collection: `none` = the collection does not exist. -/
abbrev Collection := Option (List IngDoc)

/-- `client.collection_exists(COLLECTION)`. -/
def collection_exists (st : Collection) : Bool := st.isSome

/-- `client.delete_collection(COLLECTION)`. -/
def delete_collection (_ : Collection) : Collection := none

/-- `client.create_collection(COLLECTION, ...)`. -/
def create_collection (_ : Collection) : Collection := some []

/-- The effect of one `ingest_pdf_bytes(pdf_bytes, filename)` call as seen by
`/upload`: the documents it added to the collection, the returned count and
error list; `none` models an exception raised while reading or ingesting the
upload (caught by `/upload`, which then adds nothing for that file). -/
abbrev IngestFn := List Nat → String → Option (List IngDoc × Nat × List String)

/-- The state and response produced by `/upload`. -/
structure UploadOutcome where
  collection : Collection
  status : String
  chunks_indexed : Nat
  errors : List String
deriving DecidableEq

/-- The body of the `for upload in files:` loop of `/upload`: skip non-`.pdf`
filenames with an error entry, otherwise ingest (adding the produced
documents to the collection) or record the raised exception. -/
def uploadStep (ingestFn : IngestFn) (acc : Collection × Nat × List String)
    (f : PFile) : Collection × Nat × List String :=
  if ¬ (pyEndsWith (strLower f.filename) ".pdf") then
    (acc.1, acc.2.1, acc.2.2 ++ [f.filename ++ ": not a PDF"])
  else
    match ingestFn f.content f.filename with
    | none => (acc.1, acc.2.1, acc.2.2 ++ [f.filename ++ " ingestion error"])
    | some (docs, n, ferrs) =>
        (acc.1.map (fun c => c ++ docs), acc.2.1 + n, acc.2.2 ++ ferrs)

/-- The `/upload` endpoint: delete the collection if it exists, create a
fresh one, then ingest each `.pdf` upload in turn (case-insensitive
extension check), accumulating counts and errors. -/
def upload_pdfs (st : Collection) (ingestFn : IngestFn) (files : List PFile) :
    UploadOutcome :=
  let st0 := if collection_exists st then delete_collection st else st
  let st1 := create_collection st0
  let final := files.foldl (uploadStep ingestFn) (st1, 0, ([] : List String))
  ⟨final.1, "success", final.2.1, final.2.2⟩

/-- Spec-side: one request file's contribution to the fresh collection. -/
def requestStep (ingestFn : IngestFn) (acc : List IngDoc) (f : PFile) : List IngDoc :=
  if pyEndsWith (strLower f.filename) ".pdf" then
    match ingestFn f.content f.filename with
    | some r => acc ++ r.1
    | none => acc
  else acc

/-- Spec-side: the records derived from the files of one request (documents
added by the successful ingestions of its `.pdf` uploads, in order). -/
def requestDocs (ingestFn : IngestFn) (files : List PFile) : List IngDoc :=
  files.foldl (requestStep ingestFn) []

/-! ## Concrete instances used by counterexamples and witnesses -/

/-- A stored unit with absent `source` metadata whose raw text contains "ab"
(upper-cased in the middle). -/
def cxRawDoc1 : Doc := ⟨"s1", ⟨some "xxAByy", none, none, some 1⟩⟩

/-- A second stored unit with absent `source` whose raw text contains "ab". -/
def cxRawDoc2 : Doc := ⟨"s2", ⟨some "zzabzz", none, none, some 2⟩⟩

/-- A two-document store behaving per the vector-store contract: every
search returns the first `min(k, 2)` stored documents. -/
def cxSearchC1 : SearchFn :=
  fun _ k => some ([cxRawDoc1, cxRawDoc2].take k)

/-- Two distinct stored units sharing the same `(source, page)` pair. -/
def cxDupDoc1 : Doc := ⟨"sum1", ⟨some "r1", none, some "a.pdf", some 1⟩⟩

/-- See `cxDupDoc1`. -/
def cxDupDoc2 : Doc := ⟨"sum2", ⟨some "r2", none, some "a.pdf", some 1⟩⟩

/-- A search returning two hits with the same `(source, page)` pair. -/
def cxSearchC3 : SearchFn := fun _ _ => some [cxDupDoc1, cxDupDoc2]

/-- A stored unit with no `source` metadata (its result dictionary therefore
carries the default empty-string `source`). -/
def cxEmptySrcDoc : Doc := ⟨"sum4", ⟨some "t", none, none, some 3⟩⟩

/-- A search whose only hit lacks `source` metadata. -/
def cxSearchC4 : SearchFn :=
  fun q _ => if q = "" then some [] else some [cxEmptySrcDoc]

/-- An LLM answering every prompt with `"ans"`. -/
def cxLlm : String → Option String := fun _ => some "ans"

/-- A generic stored unit used by witnesses. -/
def wDoc : Doc := ⟨"ws", ⟨some "wraw", none, some "w.pdf", some 1⟩⟩

/-- A search always returning `[wDoc]`. -/
def wSearchOne : SearchFn := fun _ _ => some [wDoc]

/-- A search always returning no documents. -/
def wSearchEmpty : SearchFn := fun _ _ => some []

/-! ## Helper lemmas -/

theorem retrieve_some (search : SearchFn) (query : String) (top_k : Nat)
    (docs : List Doc) (h : search query top_k = some docs) :
    retrieve search query top_k = docs.map docToRes := by
  unfold retrieve
  rw [h]
  rfl

theorem retrieve_noraise (search : SearchFn) (query : String) (top_k : Nat)
    (h : search query top_k = none) : retrieve search query top_k = [] := by
  unfold retrieve
  rw [h]

theorem kwScan_eq_take (qL : String) (semLen top_k : Nat) :
    ∀ (pool : List Doc) (seen : List Ident) (acc : List Doc),
      semLen + acc.length < top_k →
      kwScan qL semLen top_k pool seen acc =
        acc ++ (keywordSpecC1 qL pool seen).take (top_k - (semLen + acc.length))
  | [], seen, acc, h => by simp [kwScan, keywordSpecC1]
  | doc :: rest, seen, acc, h => by
      by_cases hc : kwCond qL seen doc
      · simp only [kwScan, keywordSpecC1, if_pos hc]
        by_cases hstop : top_k ≤ semLen + (acc ++ [doc]).length
        · rw [if_pos hstop]
          have h1 : top_k - (semLen + acc.length) = 1 := by
            simp only [List.length_append, List.length_cons, List.length_nil] at hstop
            omega
          rw [h1]
          simp [List.take_succ_cons]
        · rw [if_neg hstop]
          have hlt : semLen + (acc ++ [doc]).length < top_k := by
            omega
          rw [kwScan_eq_take qL semLen top_k rest (identOf doc :: seen) (acc ++ [doc]) hlt]
          have h2 : top_k - (semLen + acc.length) =
              (top_k - (semLen + (acc ++ [doc]).length)) + 1 := by
            simp only [List.length_append, List.length_cons, List.length_nil]
            omega
          rw [h2, List.take_succ_cons]
          simp
      · have hnostop : ¬ top_k ≤ semLen + acc.length := by omega
        simp only [kwScan, keywordSpecC1, if_neg hc, if_neg hnostop]
        exact kwScan_eq_take qL semLen top_k rest seen acc h

theorem keywordSpecC1_sound (qL : String) :
    ∀ (pool : List Doc) (seen : List Ident),
      ((keywordSpecC1 qL pool seen).map identOf).Nodup ∧
        ∀ d ∈ keywordSpecC1 qL pool seen, identOf d ∉ seen
  | [], seen => by simp [keywordSpecC1]
  | doc :: rest, seen => by
      by_cases hc : kwCond qL seen doc
      · have ih := keywordSpecC1_sound qL rest (identOf doc :: seen)
        simp only [keywordSpecC1, if_pos hc]
        constructor
        · simp only [List.map_cons, List.nodup_cons]
          refine ⟨?_, ih.1⟩
          intro hmem
          obtain ⟨d, hd, heq⟩ := List.mem_map.mp hmem
          exact (ih.2 d hd) (by rw [heq]; exact List.mem_cons_self _ _)
        · intro d hd
          rcases List.mem_cons.mp hd with rfl | hd'
          · exact hc.2
          · exact fun hs => (ih.2 d hd') (List.mem_cons_of_mem _ hs)
      · have ih := keywordSpecC1_sound qL rest seen
        simp only [keywordSpecC1, if_neg hc]
        exact ih

theorem hybrid_retrieve_fallback (search : SearchFn) (query : String) (top_k : Nat)
    (hlt : (retrieve search query top_k).length < top_k)
    (pool : List Doc) (hp : search "" 50 = some pool) :
    hybrid_retrieve search query top_k =
      some (retrieve search query top_k ++
        (kwScan (strLower query) (retrieve search query top_k).length top_k pool
          ((retrieve search query top_k).map resIdent) []).map docToRes) := by
  unfold hybrid_retrieve
  rw [if_pos hlt, hp]

theorem hybrid_retrieve_nofallback (search : SearchFn) (query : String) (top_k : Nat)
    (hge : ¬ (retrieve search query top_k).length < top_k) :
    hybrid_retrieve search query top_k = some (retrieve search query top_k) := by
  unfold hybrid_retrieve
  rw [if_neg hge]

theorem hybrid_retrieve_raise (search : SearchFn) (query : String) (top_k : Nat)
    (hlt : (retrieve search query top_k).length < top_k)
    (hp : search "" 50 = none) :
    hybrid_retrieve search query top_k = none := by
  unfold hybrid_retrieve
  rw [if_pos hlt, hp]

theorem kwOf_spec (search : SearchFn) (query : String) (top_k : Nat)
    (out : List RDoc) (hout : hybrid_retrieve search query top_k = some out) :
    out = retrieve search query top_k ++ (kwOf search query top_k).map docToRes := by
  by_cases hlt : (retrieve search query top_k).length < top_k
  · cases hp : search "" 50 with
    | none =>
        rw [hybrid_retrieve_raise search query top_k hlt hp] at hout
        exact absurd hout (by simp)
    | some pool =>
        rw [hybrid_retrieve_fallback search query top_k hlt pool hp] at hout
        have : kwOf search query top_k =
            kwScan (strLower query) (retrieve search query top_k).length top_k pool
              ((retrieve search query top_k).map resIdent) [] := by
          unfold kwOf
          rw [if_pos hlt, hp]
        rw [this]
        exact (Option.some.inj hout).symm
  · rw [hybrid_retrieve_nofallback search query top_k hlt] at hout
    have : kwOf search query top_k = [] := by
      unfold kwOf
      rw [if_neg hlt]
    rw [this]
    simp [(Option.some.inj hout).symm]

theorem uniqueUnits_le_length (store : List Doc) : uniqueUnits store ≤ store.length := by
  unfold uniqueUnits
  calc ((store.map identOf).dedup).length ≤ (store.map identOf).length :=
        (List.dedup_sublist _).length_le
    _ = store.length := List.length_map _ _

/-! ## Claim C1 -/

/-- C1 (counterexample): the claim omits the early stop of the keyword scan.
With `top_k = 3` over a two-document store (both documents lacking `source`
metadata, so both scan identifiers are fresh against the semantic results'
defaulted-empty sources), `hybrid_retrieve` appends only the first matching
candidate — the combined count then reaches `top_k` and the loop breaks —
while the claimed behaviour, append a candidate exactly when it matches and
is fresh, would append both. -/
theorem hybrid_retrieve_no_stop_cx :
    hybrid_retrieve cxSearchC1 "ab" 3 =
      some [docToRes cxRawDoc1, docToRes cxRawDoc2, docToRes cxRawDoc1] ∧
    hybridSpecC1 cxSearchC1 "ab" 3 =
      some [docToRes cxRawDoc1, docToRes cxRawDoc2, docToRes cxRawDoc1, docToRes cxRawDoc2] ∧
    hybrid_retrieve cxSearchC1 "ab" 3 ≠ hybridSpecC1 cxSearchC1 "ab" 3 := by
  refine ⟨by decide, by decide, by decide⟩

/-- C1 (amended): `hybrid_retrieve` runs the semantic search for `top_k`
results and returns them alone iff they number at least `top_k`; otherwise it
fetches the 50-document pool and appends, in scan order, the candidates whose
lower-cased stored raw text contains the lower-cased query and whose
`(source, page)` pair is fresh — but only the first `top_k - |semantic|` such
candidates, the scan stopping once the combined count reaches `top_k`. -/
theorem hybrid_retrieve_characterization (search : SearchFn) (query : String)
    (top_k : Nat) (hpos : 0 < top_k) :
    (top_k ≤ (retrieve search query top_k).length →
      hybrid_retrieve search query top_k = some (retrieve search query top_k)) ∧
    ((retrieve search query top_k).length < top_k →
      hybrid_retrieve search query top_k =
        (search "" 50).map fun pool =>
          retrieve search query top_k ++
            ((keywordSpecC1 (strLower query) pool
                ((retrieve search query top_k).map resIdent)).take
              (top_k - (retrieve search query top_k).length)).map docToRes) := by
  constructor
  · intro hge
    exact hybrid_retrieve_nofallback search query top_k (by omega)
  · intro hlt
    cases hp : search "" 50 with
    | none => rw [hybrid_retrieve_raise search query top_k hlt hp]; rfl
    | some pool =>
        rw [hybrid_retrieve_fallback search query top_k hlt pool hp]
        rw [kwScan_eq_take (strLower query) (retrieve search query top_k).length top_k
          pool ((retrieve search query top_k).map resIdent) [] (by simpa using hlt)]
        simp

/-- C1 (witness): the no-fallback branch of the characterization at a search
that returns one semantic hit for `top_k = 1`. -/
theorem hybrid_retrieve_characterization_witness :
    hybrid_retrieve wSearchOne "q" 1 = some (retrieve wSearchOne "q" 1) :=
  (hybrid_retrieve_characterization wSearchOne "q" 1 (by decide)).1 (by decide)

/-! ## Claim C2 -/

/-- C2: when the semantic search abides by the vector store's contract —
`similarity_search(query, k)` returns `min(k, #stored)` documents — every
list returned by `hybrid_retrieve` has length at least
`min(top_k, total_available_unique_units)`. -/
theorem hybrid_retrieve_min_count (search : SearchFn) (store : List Doc)
    (query : String) (top_k : Nat) (hpos : 0 < top_k)
    (hsem : (retrieve search query top_k).length = min top_k store.length)
    (out : List RDoc) (hout : hybrid_retrieve search query top_k = some out) :
    min top_k (uniqueUnits store) ≤ out.length := by
  have hmin : min top_k (uniqueUnits store) ≤ (retrieve search query top_k).length := by
    rw [hsem]
    exact min_le_min (le_refl top_k) (uniqueUnits_le_length store)
  have hsplit := kwOf_spec search query top_k out hout
  rw [hsplit]
  simp only [List.length_append]
  omega

/-- C2 (witness): a one-document store retrieved with `top_k = 1`. -/
theorem hybrid_retrieve_min_count_witness :
    min 1 (uniqueUnits [wDoc]) ≤ ([docToRes wDoc] : List RDoc).length :=
  hybrid_retrieve_min_count wSearchOne [wDoc] "q" 1 (by decide) (by decide)
    [docToRes wDoc] (by decide)

/-! ## Claim C3 -/

/-- C3 (counterexample): the semantic results are never deduplicated, so when
the semantic search returns two hits with the same `(source, page)` pair the
combined result list contains a duplicate pair. -/
theorem hybrid_retrieve_duplicate_pairs_cx :
    hybrid_retrieve cxSearchC3 "q" 2 = some [docToRes cxDupDoc1, docToRes cxDupDoc2] ∧
    ¬ (pairsOf [docToRes cxDupDoc1, docToRes cxDupDoc2]).Nodup := by
  refine ⟨by decide, by decide⟩

/-- C3 (amended): only the keyword-fallback part is deduplicated — the
combined list is the semantic results followed by the keyword documents,
whose `(source, page)` identifiers are pairwise distinct and avoid every
semantic result's `(source, page)` pair; the semantic results themselves may
repeat a pair. -/
theorem hybrid_retrieve_keyword_dedup (search : SearchFn) (query : String)
    (top_k : Nat) (out : List RDoc)
    (hout : hybrid_retrieve search query top_k = some out) :
    out = retrieve search query top_k ++ (kwOf search query top_k).map docToRes ∧
    kwSound (retrieve search query top_k) (kwOf search query top_k) := by
  refine ⟨kwOf_spec search query top_k out hout, ?_⟩
  unfold kwSound
  by_cases hlt : (retrieve search query top_k).length < top_k
  · cases hp : search "" 50 with
    | none =>
        have hnil : kwOf search query top_k = [] := by unfold kwOf; rw [if_pos hlt, hp]
        rw [hnil]
        exact ⟨List.nodup_nil, by simp⟩
    | some pool =>
        have h1 : kwOf search query top_k =
            kwScan (strLower query) (retrieve search query top_k).length top_k pool
              ((retrieve search query top_k).map resIdent) [] := by
          unfold kwOf
          rw [if_pos hlt, hp]
        have hkw : kwOf search query top_k =
            (keywordSpecC1 (strLower query) pool
              ((retrieve search query top_k).map resIdent)).take
              (top_k - (retrieve search query top_k).length) := by
          rw [h1, kwScan_eq_take (strLower query) (retrieve search query top_k).length top_k
            pool ((retrieve search query top_k).map resIdent) [] (by simpa using hlt)]
          simp
        have hsound := keywordSpecC1_sound (strLower query) pool
          ((retrieve search query top_k).map resIdent)
        rw [hkw]
        constructor
        · exact hsound.1.sublist ((List.take_sublist _ _).map identOf)
        · intro d hd
          exact hsound.2 d (List.take_subset _ _ hd)
  · have hnil : kwOf search query top_k = [] := by unfold kwOf; rw [if_neg hlt]
    rw [hnil]
    exact ⟨List.nodup_nil, by simp⟩

/-- C3 (witness): the dedup properties at a search with an empty store. -/
theorem hybrid_retrieve_keyword_dedup_witness :
    ([] : List RDoc) = retrieve wSearchEmpty "x" 1 ++ (kwOf wSearchEmpty "x" 1).map docToRes ∧
    kwSound (retrieve wSearchEmpty "x" 1) (kwOf wSearchEmpty "x" 1) :=
  hybrid_retrieve_keyword_dedup wSearchEmpty "x" 1 [] (by decide)

/-! ## Claim C7 -/

/-- C7: when the semantic search returns at most `top_k` results (the vector
store's contract for `similarity_search(query, k=top_k)`), `hybrid_retrieve`
returns at most `top_k` results — the keyword scan stops adding once the
combined count reaches `top_k`. -/
theorem hybrid_retrieve_at_most_top_k (search : SearchFn) (query : String)
    (top_k : Nat) (hpos : 0 < top_k)
    (hsem : (retrieve search query top_k).length ≤ top_k)
    (out : List RDoc) (hout : hybrid_retrieve search query top_k = some out) :
    out.length ≤ top_k := by
  rw [kwOf_spec search query top_k out hout]
  by_cases hlt : (retrieve search query top_k).length < top_k
  · cases hp : search "" 50 with
    | none =>
        have : kwOf search query top_k = [] := by unfold kwOf; rw [if_pos hlt, hp]
        rw [this]
        simpa using hsem
    | some pool =>
        have h1 : kwOf search query top_k =
            kwScan (strLower query) (retrieve search query top_k).length top_k pool
              ((retrieve search query top_k).map resIdent) [] := by
          unfold kwOf
          rw [if_pos hlt, hp]
        have hkw : kwOf search query top_k =
            (keywordSpecC1 (strLower query) pool
              ((retrieve search query top_k).map resIdent)).take
              (top_k - (retrieve search query top_k).length) := by
          rw [h1, kwScan_eq_take (strLower query) (retrieve search query top_k).length top_k
            pool ((retrieve search query top_k).map resIdent) [] (by simpa using hlt)]
          simp
        rw [hkw]
        simp only [List.length_append, List.length_map, List.length_take]
        omega
  · have : kwOf search query top_k = [] := by unfold kwOf; rw [if_neg hlt]
    rw [this]
    simpa using hsem

/-- C7 (witness): `top_k = 1` with a single-hit semantic search. -/
theorem hybrid_retrieve_at_most_top_k_witness :
    ([docToRes wDoc] : List RDoc).length ≤ 1 :=
  hybrid_retrieve_at_most_top_k wSearchOne "q" 1 (by decide) (by decide)
    [docToRes wDoc] (by decide)

/-! ## Claim C10 -/

/-- C10: `retrieve` is total — a raised `similarity_search` yields `[]`, and
a successful one yields one dictionary per returned document with the keys
`summary`, `raw`, `img_b64`, `source`, `page`, defaulting `raw` and `source`
to `""` and `page` to `None` when absent from the metadata. -/
theorem retrieve_behavior (search : SearchFn) (query : String) (top_k : Nat) :
    (search query top_k = none → retrieve search query top_k = []) ∧
    (∀ docs, search query top_k = some docs →
      retrieve search query top_k = docs.map fun doc =>
        { summary := doc.page_content
          raw := doc.metadata.raw.getD ""
          img_b64 := doc.metadata.img_b64
          source := doc.metadata.source.getD ""
          page := doc.metadata.page }) := by
  constructor
  · intro h
    exact retrieve_noraise search query top_k h
  · intro docs h
    exact retrieve_some search query top_k docs h

/-- C10 (witness): both branches at concrete searches. -/
theorem retrieve_behavior_witness :
    retrieve (fun _ _ => none) "q" 3 = [] ∧ retrieve wSearchOne "q" 3 = [docToRes wDoc] :=
  ⟨(retrieve_behavior (fun _ _ => none) "q" 3).1 rfl,
   (retrieve_behavior wSearchOne "q" 3).2 [wDoc] rfl⟩

/-! ## `/ask` lemmas and claims C4, C9 -/

theorem askLoop_citations : ∀ (idx : Nat) (hits : List RDoc),
    (askLoop idx hits).2.1 = hits.map citationOf
  | _, [] => rfl
  | idx, h :: rest => by
      simp only [askLoop, List.map_cons]
      rw [askLoop_citations (idx + 1) rest]
      rfl

theorem askLoop_images : ∀ (idx : Nat) (hits : List RDoc),
    (askLoop idx hits).2.2 = hits.filterMap imgOf
  | _, [] => rfl
  | idx, h :: rest => by
      simp only [askLoop, List.filterMap_cons]
      rw [askLoop_images (idx + 1) rest]
      cases hb : h.img_b64 with
      | none => simp [imgOf, hb]
      | some s =>
          by_cases hs : s = "" <;> simp [imgOf, hb, hs, srcOf, pgOf]

theorem ask_eval_blank (retr : Option SearchFn) (llm : String → Option String)
    (text : String) (ht : pyStrip text = "") : ask retr llm text = Except.error 400 := by
  unfold ask
  rw [if_pos ht]

theorem ask_eval_noretr (llm : String → Option String) (text : String)
    (ht : ¬ pyStrip text = "") : ask none llm text = Except.error 400 := by
  unfold ask
  rw [if_neg ht]

theorem ask_some_eq (search : SearchFn) (llm : String → Option String)
    (text : String) (ht : ¬ pyStrip text = "") :
    ask (some search) llm text = askRetrieved search llm text := by
  unfold ask
  rw [if_neg ht]

theorem askRetrieved_raise (search : SearchFn) (llm : String → Option String)
    (text : String) (hh : hybrid_retrieve search text 3 = none) :
    askRetrieved search llm text = Except.error 500 := by
  unfold askRetrieved
  rw [hh]

theorem askRetrieved_hits (search : SearchFn) (llm : String → Option String)
    (text : String) (hits : List RDoc) (hh : hybrid_retrieve search text 3 = some hits) :
    askRetrieved search llm text = askHits llm text hits := by
  unfold askRetrieved
  rw [hh]

theorem askHits_404 (llm : String → Option String) (text : String)
    (hits : List RDoc) (he : hits.isEmpty = true) :
    askHits llm text hits = Except.error 404 := by
  unfold askHits
  rw [if_pos he]

theorem askHits_llm_raise (llm : String → Option String) (text : String)
    (hits : List RDoc) (he : ¬ hits.isEmpty = true)
    (hl : llm (askPrompt (askLoop 1 hits).1 text) = none) :
    askHits llm text hits = Except.error 500 := by
  unfold askHits
  rw [if_neg he, hl]

theorem askHits_ok (llm : String → Option String) (text : String)
    (hits : List RDoc) (content : String) (he : ¬ hits.isEmpty = true)
    (hl : llm (askPrompt (askLoop 1 hits).1 text) = some content) :
    askHits llm text hits =
      Except.ok ⟨pyStrip content, (askLoop 1 hits).2.1, (askLoop 1 hits).2.2⟩ := by
  unfold askHits
  rw [if_neg he, hl]

/-- C4 (counterexample): the claim's citation — `"<source> (page <page>)"`
built from the unit's metadata — fails for a retrieved unit whose `source`
is the empty string: `/ask` substitutes the fallback `"unknown"`. -/
theorem ask_citation_cx : ¬ claimC4At cxSearchC4 cxLlm "hello" := by
  intro hclaim
  have h := hclaim ⟨"ans", ["unknown (page 3)"], []⟩ (by decide)
  exact absurd h.1 (by decide)

/-- C4 (amended): in every successful `/ask` response, the citation at each
unit's position is `"<src> (page <pg>)"` where `<src>` is the unit's `source`
if non-empty and `"unknown"` otherwise, and `<pg>` is the unit's page if
present and non-zero and `-1` otherwise; an image entry (with the same
`src`/`pg` fallbacks) is included exactly for the units carrying a non-empty
base64 payload. -/
theorem ask_citations_images (search : SearchFn) (llm : String → Option String)
    (text : String) (resp : AnswerResponse)
    (h : ask (some search) llm text = Except.ok resp) :
    resp.citations = (hitsOf search text).map citationOf ∧
    resp.images = (hitsOf search text).filterMap imgOf := by
  by_cases ht : pyStrip text = ""
  · rw [ask_eval_blank (some search) llm text ht] at h
    exact absurd h (by simp)
  · rw [ask_some_eq search llm text ht] at h
    cases hh : hybrid_retrieve search text 3 with
    | none =>
        rw [askRetrieved_raise search llm text hh] at h
        exact absurd h (by simp)
    | some hits =>
        rw [askRetrieved_hits search llm text hits hh] at h
        have hhits : hitsOf search text = hits := by unfold hitsOf; rw [hh]; rfl
        by_cases he : hits.isEmpty
        · rw [askHits_404 llm text hits he] at h
          exact absurd h (by simp)
        · cases hl : llm (askPrompt (askLoop 1 hits).1 text) with
          | none =>
              rw [askHits_llm_raise llm text hits he hl] at h
              exact absurd h (by simp)
          | some content =>
              rw [askHits_ok llm text hits content he hl] at h
              have hr := Except.ok.inj h
              rw [← hr, hhits]
              exact ⟨askLoop_citations 1 hits, askLoop_images 1 hits⟩

/-- C4 (witness): a successful request whose single hit has empty `source`,
no image payload and page 3. -/
theorem ask_citations_images_witness :
    (⟨"ans", ["unknown (page 3)"], []⟩ : AnswerResponse).citations =
      (hitsOf cxSearchC4 "hello").map citationOf ∧
    (⟨"ans", ["unknown (page 3)"], []⟩ : AnswerResponse).images =
      (hitsOf cxSearchC4 "hello").filterMap imgOf :=
  ask_citations_images cxSearchC4 cxLlm "hello" ⟨"ans", ["unknown (page 3)"], []⟩
    (by decide)

/-- C9: `/ask` fails with 400 exactly when the stripped question is empty or
no retriever was initialised; once past those checks it fails with 404
exactly when hybrid retrieval returns the empty list; and no failure
produces an answer. -/
theorem ask_error_conditions (retr : Option SearchFn) (llm : String → Option String)
    (text : String) :
    (ask retr llm text = Except.error 400 ↔ (pyStrip text = "" ∨ retr = none)) ∧
    (∀ search, retr = some search → pyStrip text ≠ "" →
      (ask retr llm text = Except.error 404 ↔ hybrid_retrieve search text 3 = some [])) ∧
    (∀ c resp, ask retr llm text = Except.error c → ask retr llm text ≠ Except.ok resp) := by
  refine ⟨?_, ?_, ?_⟩
  · by_cases ht : pyStrip text = ""
    · rw [ask_eval_blank retr llm text ht]
      simp [ht]
    · cases retr with
      | none =>
          rw [ask_eval_noretr llm text ht]
          simp
      | some search =>
          rw [ask_some_eq search llm text ht]
          cases hh : hybrid_retrieve search text 3 with
          | none =>
              rw [askRetrieved_raise search llm text hh]
              simp [ht]
          | some hits =>
              rw [askRetrieved_hits search llm text hits hh]
              by_cases he : hits.isEmpty
              · rw [askHits_404 llm text hits he]
                simp [ht]
              · cases hl : llm (askPrompt (askLoop 1 hits).1 text) with
                | none =>
                    rw [askHits_llm_raise llm text hits he hl]
                    simp [ht]
                | some content =>
                    rw [askHits_ok llm text hits content he hl]
                    simp [ht]
  · intro search hs ht
    subst hs
    rw [ask_some_eq search llm text ht]
    cases hh : hybrid_retrieve search text 3 with
    | none =>
        rw [askRetrieved_raise search llm text hh]
        simp
    | some hits =>
        rw [askRetrieved_hits search llm text hits hh]
        by_cases he : hits.isEmpty
        · have hnil : hits = [] := List.isEmpty_iff.mp he
          subst hnil
          rw [askHits_404 llm text [] he]
          simp
        · have hne : hits ≠ [] := fun hnil => he (by rw [hnil]; rfl)
          cases hl : llm (askPrompt (askLoop 1 hits).1 text) with
          | none =>
              rw [askHits_llm_raise llm text hits he hl]
              simp [hne]
          | some content =>
              rw [askHits_ok llm text hits content he hl]
              simp [hne]
  · intro c resp herr hok
    rw [herr] at hok
    exact absurd hok (by simp)

/-- C9 (witness): the 404 branch at an empty store with a non-blank question. -/
theorem ask_error_conditions_witness :
    ask (some wSearchEmpty) cxLlm "q" = Except.error 404 :=
  ((ask_error_conditions (some wSearchEmpty) cxLlm "q").2.1 wSearchEmpty rfl
    (by decide)).mpr (by decide)

/-! ## Ingestion lemmas and claims C5, C6 -/

theorem pageLoop_eq (llm : LlmFn) (fn : String) : ∀ (idx : Nat) (pages : List String),
    (pageLoop llm fn idx pages).1 = (List.enumFrom idx pages).filterMap fun p =>
      if pyStrip p.2 = "" then none
      else (text_chain llm (pyStrip p.2)).map fun resp =>
        ⟨resp, ⟨fn, some (p.1 : Int), "page", pyStrip p.2, none⟩⟩
  | _, [] => rfl
  | idx, page :: rest => by
      have ih := pageLoop_eq llm fn (idx + 1) rest
      simp only [pageLoop, List.enumFrom, List.filterMap_cons]
      by_cases hp : pyStrip page = ""
      · rw [if_pos hp, if_pos hp]
        exact ih
      · rw [if_neg hp, if_neg hp]
        cases hc : text_chain llm (pyStrip page) with
        | none => simpa [hc] using ih
        | some resp => simp [hc, ih]

theorem chunkInner_eq (llm : LlmFn) (fn : String) (pg : Option Int) :
    ∀ chunks : List String,
      (chunkInner llm fn pg chunks).1 = chunks.filterMap fun chunk =>
        (text_chain llm chunk).map fun resp => ⟨resp, ⟨fn, pg, "chunk", chunk, none⟩⟩
  | [] => rfl
  | chunk :: rest => by
      have ih := chunkInner_eq llm fn pg rest
      simp only [chunkInner, List.filterMap_cons]
      cases hc : text_chain llm chunk with
      | none => simpa [hc] using ih
      | some resp => simp [hc, ih]

theorem chunkLoop_eq (llm : LlmFn) (split_text : String → List String) (fn : String) :
    ∀ elements : List Element,
      (chunkLoop llm split_text fn (collectElems elements).1).1 =
        narrativeChunksSpec llm split_text fn elements
  | [] => rfl
  | el :: rest => by
      have ih := chunkLoop_eq llm split_text fn rest
      unfold narrativeChunksSpec at ih ⊢
      unfold collectElems
      by_cases hn : pyStartsWith (el.element_type.getD "") "Narrative" = true
      · simp only [if_pos hn, chunkLoop]
        rw [chunkInner_eq llm fn el.page_number (split_text el.content), ih]
        simp [List.filter_cons, hn]
      · rw [if_neg hn]
        by_cases htb : el.element_type = some "Table"
        · simp only [if_pos htb]
          rw [ih]
          simp [List.filter_cons, hn]
        · simp only [if_neg htb]
          rw [ih]
          simp [List.filter_cons, hn]

theorem tableLoop_eq (llm : LlmFn) (fn : String) :
    ∀ elements : List Element,
      (tableLoop llm fn (collectElems elements).2).1 = tableDocsSpec llm fn elements
  | [] => rfl
  | el :: rest => by
      have ih := tableLoop_eq llm fn rest
      unfold tableDocsSpec at ih ⊢
      unfold collectElems
      by_cases hn : pyStartsWith (el.element_type.getD "") "Narrative" = true
      · have htb : ¬ (el.element_type = some "Table") := by
          intro hc
          rw [hc] at hn
          exact absurd hn (by decide)
        simp only [if_pos hn]
        rw [ih]
        simp [List.filter_cons, htb]
      · rw [if_neg hn]
        by_cases htb : el.element_type = some "Table"
        · simp only [if_pos htb, tableLoop]
          cases hc : table_chain llm ("<table>\n" ++ el.content ++ "\n</table>") with
          | none =>
              rw [ih]
              simp [List.filter_cons, htb, hc]
          | some resp =>
              rw [ih]
              simp [List.filter_cons, htb, hc]
        · simp only [if_neg htb]
          rw [ih]
          simp [List.filter_cons, htb]

theorem imageLoop_eq (llm : LlmFn) (fn : String) :
    ∀ images : List OcrImage,
      (imageLoop llm fn images).1 = imageDocsSpec llm fn images
  | [] => rfl
  | im :: rest => by
      have ih := imageLoop_eq llm fn rest
      unfold imageDocsSpec at ih ⊢
      unfold imageLoop
      simp only [List.filterMap_cons]
      by_cases ho : pyStrip im.ocr = ""
      · simp only [if_pos ho]
        exact ih
      · simp only [if_neg ho]
        cases hc : image_chain llm (pyStrip im.ocr) with
        | none => simpa [hc] using ih
        | some resp => simp [hc, ih]

/-- C5: the stored summaries of an ingestion are exactly the whole-page
summaries (unsplit), then one summary per chunk of the recursive character
splitter — configured with maximum unit size 800 and overlap 100 — applied
exactly to the elements whose type starts with `"Narrative"`, then the table
summaries (unsplit), then the OCR-image summaries. -/
theorem ingest_chunking_policy (llm : LlmFn)
    (split : SplitterConfig → String → List String) (pdf_filename : String)
    (pages : List String) (elements : List Element) (images : List OcrImage) :
    (ingest_pdf_bytes llm split pdf_filename pages elements images).1 =
      pageDocsSpec llm pdf_filename pages ++
      narrativeChunksSpec llm (split splitter) pdf_filename elements ++
      tableDocsSpec llm pdf_filename elements ++
      imageDocsSpec llm pdf_filename images ∧
    splitter.chunk_size = 800 ∧ splitter.chunk_overlap = 100 := by
  refine ⟨?_, rfl, rfl⟩
  have h1 : (pageLoop llm pdf_filename 1 pages).1 = pageDocsSpec llm pdf_filename pages := by
    rw [pageLoop_eq llm pdf_filename 1 pages]
    rfl
  simp only [ingest_pdf_bytes]
  rw [h1, chunkLoop_eq llm (split splitter) pdf_filename elements,
    tableLoop_eq llm pdf_filename elements, imageLoop_eq llm pdf_filename images]

/-- C6: the splitter configuration has non-negative overlap strictly smaller
than the chunk size (100 against 800). -/
theorem splitter_overlap_lt_size :
    0 ≤ splitter.chunk_overlap ∧ splitter.chunk_overlap < splitter.chunk_size ∧
    splitter.chunk_overlap = 100 ∧ splitter.chunk_size = 800 := by
  refine ⟨by decide, by decide, rfl, rfl⟩

/-! ## `/upload` lemma and claim C8 -/

theorem upload_fold_eq (ingestFn : IngestFn) :
    ∀ (files : List PFile) (L : List IngDoc) (t : Nat) (e : List String),
      (files.foldl (uploadStep ingestFn) (some L, t, e)).1 =
        some (files.foldl (requestStep ingestFn) L)
  | [], L, t, e => rfl
  | f :: rest, L, t, e => by
      simp only [List.foldl_cons]
      by_cases hp : pyEndsWith (strLower f.filename) ".pdf" = true
      · cases hi : ingestFn f.content f.filename with
        | none =>
            have hstep : uploadStep ingestFn (some L, t, e) f =
                (some L, t, e ++ [f.filename ++ " ingestion error"]) := by
              unfold uploadStep
              rw [if_neg (by simpa using hp), hi]
            have hrstep : requestStep ingestFn L f = L := by
              unfold requestStep
              rw [if_pos hp, hi]
            rw [hstep, hrstep]
            exact upload_fold_eq ingestFn rest L t (e ++ [f.filename ++ " ingestion error"])
        | some r =>
            obtain ⟨docs, n, ferrs⟩ := r
            have hstep : uploadStep ingestFn (some L, t, e) f =
                (some (L ++ docs), t + n, e ++ ferrs) := by
              unfold uploadStep
              rw [if_neg (by simpa using hp), hi]
              rfl
            have hrstep : requestStep ingestFn L f = L ++ docs := by
              unfold requestStep
              rw [if_pos hp, hi]
            rw [hstep, hrstep]
            exact upload_fold_eq ingestFn rest (L ++ docs) (t + n) (e ++ ferrs)
      · have hstep : uploadStep ingestFn (some L, t, e) f =
            (some L, t, e ++ [f.filename ++ ": not a PDF"]) := by
          unfold uploadStep
          rw [if_pos (by simpa using hp)]
        have hrstep : requestStep ingestFn L f = L := by
          unfold requestStep
          rw [if_neg hp]
        rw [hstep, hrstep]
        exact upload_fold_eq ingestFn rest L t (e ++ [f.filename ++ ": not a PDF"])

/-- C8: whatever the collection held before, after `/upload` it is exactly
the records derived from that request's files — the endpoint deletes any
existing collection and recreates it before ingesting, so prior documents
are gone. -/
theorem upload_pdfs_fresh_collection (st : Collection) (ingestFn : IngestFn)
    (files : List PFile) :
    (upload_pdfs st ingestFn files).collection = some (requestDocs ingestFn files) := by
  unfold upload_pdfs requestDocs
  cases st with
  | none => exact upload_fold_eq ingestFn files [] 0 []
  | some old => exact upload_fold_eq ingestFn files [] 0 []

end PdfChatbot
